import Mathlib

/-!
# Verification of the rpm-rs core against its specification

Shallow embedding of the rpm package core: the sequential cursor, the
header codec, package metadata parsing/writing, the signing/verification
pipeline and the multi-destination processor.  Bytes are modelled as `Nat`
values, byte buffers as `List Nat`, fallible operations return `Except`.
Components whose sources are not part of the repository snapshot (the
sequential cursor and the header codec) are modelled from the
specification; their doc comments say so explicitly.
-/

/-- Error values produced by the modelled operations.  The concrete Rust
code uses `RPMError` / `std::io::Error`; we only need to distinguish the
kinds that the claims talk about. -/
inductive PErr where
  /-- `std::io::ErrorKind::WriteZero`, produced by `write_all`/`io::copy`
  when a writer returns a count of zero for a non-empty buffer. -/
  | writeZero
  /-- an arbitrary I/O failure of a sink, tagged with a code -/
  | sinkErr (code : Nat)
  /-- a verifier's post-hoc check failed, tagged with a code -/
  | verifyFailed (code : Nat)
  /-- requested tag is absent from the header -/
  | tagNotFound
  /-- entry found but its value type differs from the expected one -/
  | typeMismatch
  /-- input ended before the requested number of bytes could be read -/
  | truncated
  /-- magic number / version check failed -/
  | badMagic
  /-- an index entry's (offset, count, width) exceeds the store bounds -/
  | boundsViolation
  /-- absolute seek target exceeds the total logical length -/
  | seekOutOfBounds
  /-- backend signing failure, tagged with a code -/
  | signErr (code : Nat)
  /-- artificial marker for fuel exhaustion of the fuelled `write_all`
  loop; unreachable whenever the fuel is at least the buffer length -/
  | fuelOut
deriving DecidableEq, Repr

/-! ## Sequential cursor

`src/sequential_cursor.rs` is not part of the repository snapshot, only
its callers in `package.rs` are. -/

/-- Modelled from the spec: the Sequential Cursor of `sequential_cursor.rs`
(missing from the snapshot) presents an ordered list of byte buffers as one
logical contiguous stream; it tracks a read position and the total logical
length. -/
structure SeqCursor where
  segments : List (List Nat)
  pos : Nat
deriving DecidableEq, Repr

namespace SeqCursor

/-- `SeqCursor::new`: build a cursor over the given segments, position 0. -/
def new (segs : List (List Nat)) : SeqCursor := ⟨segs, 0⟩

/-- The logical concatenation of all segments. -/
def allBytes (c : SeqCursor) : List Nat := c.segments.flatten

/-- `SeqCursor::len`: the total logical length. -/
def len (c : SeqCursor) : Nat := c.allBytes.length

/-- Modelled from the spec: sequential read returns up to the requested
length, zero bytes at the logical end, and never fails (`io::Result` is
always `Ok`). -/
def read (c : SeqCursor) (n : Nat) : Except PErr (List Nat × SeqCursor) :=
  let bytes := (c.allBytes.drop c.pos).take n
  Except.ok (bytes, { c with pos := c.pos + bytes.length })

/-- Modelled from the spec: absolute seek-from-start fails iff the target
exceeds the total logical length. -/
def seek (c : SeqCursor) (target : Nat) : Except PErr SeqCursor :=
  if target ≤ c.len then Except.ok { c with pos := target }
  else Except.error PErr.seekOutOfBounds

/-- The bytes from the current position to the logical end. -/
def remaining (c : SeqCursor) : List Nat := c.allBytes.drop c.pos

end SeqCursor

/-! ## The MD5 digest loop of `RPMPackage::sign`

`package.rs` lines 62–66:
```
let mut buf = [0u8; 256];
while let Ok(n) = header_and_content_cursor.read(&mut buf[..]) {
    hasher.update(&buf[0..n]);
}
```
The loop body has no `break`; the `while let` pattern exits only when
`read` returns `Err`.  We model the hash state as the list of absorbed
bytes (the digest is a function of that list; the concrete MD5 compression
is an external collaborator) and run the loop on fuel: `none` means the
loop did not exit within `fuel` iterations. -/

/-- One-to-one translation of the digest loop in `RPMPackage::sign`: each
iteration reads up to 256 bytes; an `Ok` result (of any size, including 0)
continues the loop absorbing the bytes; an `Err` result exits the loop,
the error being discarded.  `none` = the loop did not exit within `fuel`
iterations. -/
def md5LoopRun : Nat → SeqCursor → List Nat → Option (List Nat × SeqCursor)
  | 0, _, _ => none
  | fuel + 1, c, absorbed =>
    match c.read 256 with
    | Except.error _ => some (absorbed, c)
    | Except.ok (bytes, c') => md5LoopRun fuel c' (absorbed ++ bytes)

/-! ## Header codec

`src/rpm/headers.rs` and the `Lead` implementation are not part of the
repository snapshot; the codec below is modelled from the specification
(§4.2, §6). -/

/-- Big-endian serialization of a 32-bit unsigned integer. -/
def u32be (n : Nat) : List Nat :=
  [n / 2 ^ 24 % 256, n / 2 ^ 16 % 256, n / 2 ^ 8 % 256, n % 256]

/-- Big-endian decoding of four bytes. -/
def beU32 (bs : List Nat) : Nat :=
  match bs with
  | [b0, b1, b2, b3] => b0 * 2 ^ 24 + b1 * 2 ^ 16 + b2 * 2 ^ 8 + b3
  | _ => 0

/-- `read_exact`-style splitting: the first `n` bytes and the rest, or a
truncation error when fewer than `n` bytes remain. -/
def takeExact (n : Nat) (input : List Nat) : Except PErr (List Nat × List Nat) :=
  if n ≤ input.length then Except.ok (input.take n, input.drop n)
  else Except.error PErr.truncated

/-- Modelled from the spec: one index entry of a header - tag id, value
type id, store offset, element count (16 serialized bytes). -/
structure IndexEntry where
  tag : Nat
  typ : Nat
  offset : Nat
  count : Nat
deriving DecidableEq, Repr

/-- Byte width of a value type (int16 = 2, int32 = 4, int64 = 8, byte-like
otherwise), used for the store-bounds validation. -/
def typeWidth (typ : Nat) : Nat :=
  if typ = 3 then 2 else if typ = 4 then 4 else if typ = 5 then 8 else 1

/-- Modelled from the spec: a header holds an ordered sequence of index
entries plus a store of raw value bytes.  The signature header and the
main header share this codec (two tag domains, one structure). -/
structure Header where
  entries : List IndexEntry
  store : List Nat
deriving DecidableEq, Repr

/-- Header preamble: 3 magic bytes, 1 version byte, 4 reserved bytes. -/
def headerMagic : List Nat := [0x8e, 0xad, 0xe8, 0x01, 0, 0, 0, 0]

/-- 96-byte lead magic. -/
def leadMagic : List Nat := [0xed, 0xab, 0xee, 0xdb]

/-- Size of the lead block. -/
def LEAD_SIZE : Nat := 96

namespace IndexEntry

/-- 16-byte serialization of one index entry. -/
def write (e : IndexEntry) : List Nat :=
  u32be e.tag ++ u32be e.typ ++ u32be e.offset ++ u32be e.count

/-- Decode one 16-byte index record. -/
def parse (bs : List Nat) : IndexEntry :=
  { tag := beU32 (bs.take 4)
    typ := beU32 ((bs.drop 4).take 4)
    offset := beU32 ((bs.drop 8).take 4)
    count := beU32 ((bs.drop 12).take 4) }

end IndexEntry

namespace Header

/-- Modelled from the spec: serialize a header - preamble, index-entry
count, store size, index region, store region; the two sizes are
recomputed from the actual entries/store at write time. -/
def write (h : Header) : List Nat :=
  headerMagic ++ u32be h.entries.length ++ u32be h.store.length ++
    (h.entries.map IndexEntry.write).flatten ++ h.store

/-- Padding that brings the index+store region to an 8-byte boundary
(applied when the header is written / parsed as a signature header). -/
def sigPad (h : Header) : Nat :=
  (8 - (16 * h.entries.length + h.store.length) % 8) % 8

/-- Modelled from the spec: the signature-specific write entry point pads
the region to 8-byte alignment. -/
def writeSignature (h : Header) : List Nat :=
  h.write ++ List.replicate h.sigPad 0

/-- Decode `n` consecutive 16-byte index records. -/
def parseEntries : Nat → List Nat → List IndexEntry
  | 0, _ => []
  | n + 1, bs => IndexEntry.parse (bs.take 16) :: parseEntries n (bs.drop 16)

/-- An index entry lies within the store bounds. -/
def entryInBounds (storeLen : Nat) (e : IndexEntry) : Bool :=
  e.offset + e.count * typeWidth e.typ ≤ storeLen

/-- Modelled from the spec: parse a header - read the 8-byte preamble
(failing on a magic/version mismatch), the index-entry count and store
size, the index region and the store, validating every entry against the
store bounds.  Returns the header and the unconsumed rest. -/
def parse (input : List Nat) : Except PErr (Header × List Nat) := do
  let (pre, r1) ← takeExact 8 input
  if pre.take 4 ≠ headerMagic.take 4 then
    Except.error PErr.badMagic
  else do
    let (cntB, r2) ← takeExact 4 r1
    let (sizeB, r3) ← takeExact 4 r2
    let cnt := beU32 cntB
    let storeSize := beU32 sizeB
    let (idxB, r4) ← takeExact (16 * cnt) r3
    let (store, r5) ← takeExact storeSize r4
    let entries := parseEntries cnt idxB
    if entries.all (entryInBounds storeSize) then
      Except.ok ({ entries := entries, store := store }, r5)
    else
      Except.error PErr.boundsViolation

/-- Modelled from the spec: the signature-specific parse entry point also
consumes the 8-byte-alignment padding after the store. -/
def parseSignature (input : List Nat) : Except PErr (Header × List Nat) := do
  let (h, r) ← parse input
  let (_, r') ← takeExact h.sigPad r
  Except.ok (h, r')

/-- Modelled from the spec: `get_entry_binary_data(tag)` looks the tag up
among the index entries (tag-not-found error if absent), checks the value
type is BIN = 7 (type-mismatch error otherwise) and returns the referenced
store slice. -/
def get_entry_binary_data (h : Header) (tag : Nat) : Except PErr (List Nat) :=
  match h.entries.find? (fun e => e.tag = tag) with
  | none => Except.error PErr.tagNotFound
  | some e =>
    if e.typ = 7 then Except.ok ((h.store.drop e.offset).take e.count)
    else Except.error PErr.typeMismatch

end Header

/-! ## Recognized signature tags -/

def RPMSIGTAG_RSA : Nat := 268
def RPMSIGTAG_SHA1 : Nat := 269
def RPMSIGTAG_SIZE : Nat := 1000
def RPMSIGTAG_PGP : Nat := 1002
def RPMSIGTAG_MD5 : Nat := 1004

/-- Round `n` up to the next multiple of 4 (store alignment of an INT32
entry). -/
def align4 (n : Nat) : Nat := (n + 3) / 4 * 4

/-- `usize as i32` in Rust: keep the low 32 bits and reinterpret them as a
signed 32-bit integer. -/
def usizeToI32 (n : Nat) : Int :=
  if n % 2 ^ 32 < 2 ^ 31 then ((n % 2 ^ 32 : Nat) : Int)
  else ((n % 2 ^ 32 : Nat) : Int) - 2 ^ 32

/-- Big-endian two's-complement serialization of an i32 value. -/
def i32be (v : Int) : List Nat := u32be (v % 2 ^ 32).toNat

namespace Header

/-- Modelled from the spec: `Header::<IndexSignatureTag>::new_signature_header`
builds a signature header containing exactly the recognized signature tags
- size (INT32), MD5 digest (BIN), SHA1 digest (STRING, NUL-terminated),
header-only RSA signature (BIN), header+payload RSA signature (BIN) - in
ascending tag order, with a sequentially laid out store (INT32 value
aligned to 4 bytes). -/
def new_signature_header (size : Int) (md5 : List Nat) (sha1 : List Nat)
    (rsaSig : List Nat) (pgpSig : List Nat) : Header :=
  let o1 := rsaSig.length
  let o2 := align4 (o1 + sha1.length + 1)
  let o3 := o2 + 4
  let o4 := o3 + pgpSig.length
  { entries :=
      [ { tag := RPMSIGTAG_RSA, typ := 7, offset := 0, count := rsaSig.length }
      , { tag := RPMSIGTAG_SHA1, typ := 6, offset := o1, count := 1 }
      , { tag := RPMSIGTAG_SIZE, typ := 4, offset := o2, count := 1 }
      , { tag := RPMSIGTAG_PGP, typ := 7, offset := o3, count := pgpSig.length }
      , { tag := RPMSIGTAG_MD5, typ := 7, offset := o4, count := md5.length } ]
    store :=
      rsaSig ++ sha1 ++ [0] ++
        List.replicate (o2 - (o1 + sha1.length + 1)) 0 ++
        i32be size ++ pgpSig ++ md5 }

end Header

/-! ## Lead, package metadata, package -/

/-- Modelled from the spec: the 96-byte lead block.  The claims under
verification never inspect the decoded fields, so the model keeps the
validated raw bytes (parse checks magic and version, write re-emits the
bytes verbatim). -/
structure Lead where
  bytes : List Nat
deriving DecidableEq, Repr

namespace Lead

/-- Modelled from the spec: parse the 96-byte lead buffer, failing when
the magic bytes or the major-version byte mismatch the known constants. -/
def parse (buf : List Nat) : Except PErr Lead :=
  if buf.take 4 = leadMagic ∧ (buf.drop 4).take 1 = [3] then Except.ok ⟨buf⟩
  else Except.error PErr.badMagic

/-- Modelled from the spec: re-emit the lead bytes. -/
def write (l : Lead) : List Nat := l.bytes

end Lead

/-- `RPMPackageMetadata` of `package.rs`: one lead, one signature header,
one main header. -/
structure RPMPackageMetadata where
  lead : Lead
  signature : Header
  header : Header
deriving DecidableEq, Repr

namespace RPMPackageMetadata

/-- `RPMPackageMetadata::parse` (`package.rs` lines 143-154): read exactly
`LEAD_SIZE` bytes and parse the lead, then parse the signature header,
then the main header; each stage's error propagates via `?`. -/
def parse (input : List Nat) : Except PErr (RPMPackageMetadata × List Nat) := do
  let (leadBuf, r1) ← takeExact LEAD_SIZE input
  let lead ← Lead.parse leadBuf
  let (signature, r2) ← Header.parseSignature r1
  let (header, r3) ← Header.parse r2
  Except.ok ({ lead := lead, signature := signature, header := header }, r3)

/-- `RPMPackageMetadata::write` (`package.rs` lines 156-161): lead, then
signature header (signature-specific entry point), then main header; the
result is the serialized metadata byte sequence. -/
def writeBytes (md : RPMPackageMetadata) : List Nat :=
  Lead.write md.lead ++ Header.writeSignature md.signature ++ Header.write md.header

end RPMPackageMetadata

/-- `RPMPackage` of `package.rs`: metadata plus opaque payload bytes. -/
structure RPMPackage where
  metadata : RPMPackageMetadata
  content : List Nat
deriving DecidableEq, Repr

/-! ## Signing and verification

Digests are kept symbolic: the MD5/SHA1 values are represented by the byte
sequences they are computed over (the compression functions live in
external collaborator crates and no claim depends on concrete hash
values).  A signing backend maps input bytes to signature bytes or fails;
a verifying backend checks (data, signature) pairs. -/

/-- A pluggable signing backend: `sign(bytes | stream) -> signature`.  The
stream variant is modelled by the byte sequence the stream yields. -/
structure Signer where
  sign : List Nat → Except PErr (List Nat)

/-- A pluggable verifying backend: `verify(data, signature) -> ok/fail`. -/
structure VerifierBackend where
  verify : List Nat → List Nat → Except PErr Unit

/-- `RPMPackage::sign` (`package.rs` lines 46-92), fuelled because of its
digest loop: serialize the main header, build the header‖payload cursor,
run the MD5 digest loop (`md5LoopRun`, which exits only on a read error),
seek the cursor back to the start, take the SHA1 digest of the header
bytes, invoke the backend over the header bytes and then over the cursor
stream, and finally replace the signature header wholesale via
`new_signature_header` with the cursor length cast to i32.  `none` means
the digest loop was still running after `fuel` iterations. -/
def signRun (fuel : Nat) (signer : Signer) (pkg : RPMPackage) :
    Option (Except PErr RPMPackage) :=
  let header_bytes := Header.write pkg.metadata.header
  let cursor := SeqCursor.new [header_bytes, pkg.content]
  match md5LoopRun fuel cursor [] with
  | none => none
  | some (absorbed, c1) =>
    some (do
      let c2 ← c1.seek 0
      let digest_md5 := absorbed
      let digest_sha1 := header_bytes
      let rsaHeaderOnly ← signer.sign header_bytes
      let rsaHeaderAndArchive ← signer.sign c2.remaining
      Except.ok { pkg with metadata := { pkg.metadata with
        signature := Header.new_signature_header (usizeToI32 cursor.len)
          digest_md5 digest_sha1 rsaHeaderOnly rsaHeaderAndArchive } })

/-- Whether a fuelled `sign` outcome is a successful return. -/
def signSucceeded (r : Option (Except PErr RPMPackage)) : Bool :=
  match r with
  | some (Except.ok _) => true
  | _ => false

/-- Whether a fuelled `sign` outcome is an error returned to the caller. -/
def signReturnedError (r : Option (Except PErr RPMPackage)) : Bool :=
  match r with
  | some (Except.error _) => true
  | _ => false

/-- The size argument `sign` passes to `new_signature_header`
(`package.rs` line 84): `header_and_content_cursor.len() as i32`. -/
def signStoredSize (pkg : RPMPackage) : Int :=
  usizeToI32 (SeqCursor.new [Header.write pkg.metadata.header, pkg.content]).len

/-- `RPMPackage::verify_signature` (`package.rs` lines 98-132),
instrumented with the list of backend calls it makes, each recorded as a
(data bytes, signature bytes) pair: serialize the main header, fetch the
header-only (RSA tag) and header+payload (PGP tag) signatures - failing
if either is absent - then verify the header bytes against the first and
the header‖payload cursor stream against the second. -/
def verifySignatureRun (v : VerifierBackend) (pkg : RPMPackage) :
    List (List Nat × List Nat) × Except PErr Unit :=
  let header_bytes := Header.write pkg.metadata.header
  match pkg.metadata.signature.get_entry_binary_data RPMSIGTAG_RSA with
  | Except.error e => ([], Except.error e)
  | Except.ok signature_header_only =>
    match pkg.metadata.signature.get_entry_binary_data RPMSIGTAG_PGP with
    | Except.error e => ([], Except.error e)
    | Except.ok signature_header_and_content =>
      match v.verify header_bytes signature_header_only with
      | Except.error e => ([(header_bytes, signature_header_only)], Except.error e)
      | Except.ok _ =>
        let cursorBytes := (SeqCursor.new [header_bytes, pkg.content]).remaining
        match v.verify cursorBytes signature_header_and_content with
        | Except.error e =>
            ([(header_bytes, signature_header_only),
              (cursorBytes, signature_header_and_content)], Except.error e)
        | Except.ok _ =>
            ([(header_bytes, signature_header_only),
              (cursorBytes, signature_header_and_content)], Except.ok ())

/-! ## Multi-destination processor

`RPMProcessor` / `MultiWriter` of `processor/mod.rs`.  Registered sinks
are modelled as behaviour functions (what the sink answers to each write /
verify call); every run is instrumented with a trace of the calls made so
that ordering and fan-out can be stated. -/

/-- One observable call made by the processor. -/
inductive PEvent where
  /-- the `i`-th registered verifier-writer received `chunk` via `write` -/
  | vWrite (i : Nat) (chunk : List Nat)
  /-- the `i`-th registered destination received `chunk` via `write` -/
  | dWrite (i : Nat) (chunk : List Nat)
  /-- `verify(metadata)` was called on the `i`-th verifier-writer -/
  | vVerify (i : Nat)
deriving DecidableEq, Repr

/-- Behaviour of a registered verifier-writer: the byte count (or error)
each `write` call answers, and the result of the post-hoc
`verify(metadata)` check. -/
structure VSink where
  write : List Nat → Except PErr Nat
  verifyMeta : RPMPackageMetadata → Except PErr Unit

/-- Behaviour of a registered plain destination. -/
structure DSink where
  write : List Nat → Except PErr Nat

/-- The verifier half of `MultiWriter::write` (`processor/mod.rs` lines
89-91): forward `buf` to each verifier-writer in registration order,
propagating the first error and ignoring the returned counts. -/
def vWritePhase : Nat → List VSink → List Nat → List PEvent × Except PErr Unit
  | _, [], _ => ([], Except.ok ())
  | i, v :: rest, buf =>
    match v.write buf with
    | Except.error e => ([PEvent.vWrite i buf], Except.error e)
    | Except.ok _ =>
      let (tr, r) := vWritePhase (i + 1) rest buf
      (PEvent.vWrite i buf :: tr, r)

/-- The destination half of `MultiWriter::write` (`processor/mod.rs` lines
92-96): `written` starts at 0 and is overwritten by each destination's
count in turn; the final (i.e. the last destination's) value is returned. -/
def dWritePhase : Nat → Nat → List DSink → List Nat → List PEvent × Except PErr Nat
  | _, written, [], _ => ([], Except.ok written)
  | i, _, d :: rest, buf =>
    match d.write buf with
    | Except.error e => ([PEvent.dWrite i buf], Except.error e)
    | Except.ok n =>
      let (tr, r) := dWritePhase (i + 1) n rest buf
      (PEvent.dWrite i buf :: tr, r)

/-- `MultiWriter::write` (`processor/mod.rs` lines 88-97): verifiers
first, then destinations; returns the last destination's count (0 when
there is no destination). -/
def multiWriterWrite (vs : List VSink) (ds : List DSink) (buf : List Nat) :
    List PEvent × Except PErr Nat :=
  match vWritePhase 0 vs buf with
  | (tr, Except.error e) => (tr, Except.error e)
  | (tr, Except.ok _) =>
    let (tr2, r) := dWritePhase 0 0 ds buf
    (tr ++ tr2, r)

/-- `std::io::Write::write_all` over the fan-out writer, fuelled: write
the buffer, error with `writeZero` on an accepted count of 0, retry the
unaccepted tail otherwise.  Every iteration on a non-empty buffer consumes
at least one byte, so fuel = initial buffer length always suffices and the
`fuelOut` branch is unreachable from `writeAll`. -/
def writeAllGo (vs : List VSink) (ds : List DSink) :
    Nat → List Nat → List PEvent × Except PErr Unit
  | _, [] => ([], Except.ok ())
  | 0, _ :: _ => ([], Except.error PErr.fuelOut)
  | fuel + 1, buf@(_ :: _) =>
    match multiWriterWrite vs ds buf with
    | (tr, Except.error e) => (tr, Except.error e)
    | (tr, Except.ok 0) => (tr, Except.error PErr.writeZero)
    | (tr, Except.ok (n + 1)) =>
      let (tr2, r) := writeAllGo vs ds fuel (buf.drop (n + 1))
      (tr ++ tr2, r)

/-- `write_all(buf)` with sufficient fuel. -/
def writeAll (vs : List VSink) (ds : List DSink) (buf : List Nat) :
    List PEvent × Except PErr Unit :=
  writeAllGo vs ds buf.length buf

/-- Sequencing of two traced fallible steps: on failure of the first the
second never runs and its trace is empty. -/
def pseq (a : List PEvent × Except PErr Unit) (b : List PEvent × Except PErr Unit) :
    List PEvent × Except PErr Unit :=
  match a with
  | (tr, Except.error e) => (tr, Except.error e)
  | (tr, Except.ok _) => (tr ++ b.1, b.2)

/-- `io::copy(body_input, multi_writer)` (`processor/mod.rs` line 64): the
body input is modelled by the list of chunks its successive reads return;
copy stops at the first empty read (end of stream) and `write_all`s each
chunk it read. -/
def copyRun (vs : List VSink) (ds : List DSink) : List (List Nat) → List PEvent × Except PErr Unit
  | [] => ([], Except.ok ())
  | c :: rest =>
    if c = [] then ([], Except.ok ())
    else pseq (writeAll vs ds c) (copyRun vs ds rest)

/-- `MultiWriter::verify` (`processor/mod.rs` lines 77-82): call
`verify(metadata)` on each verifier-writer in registration order, stopping
at the first failure. -/
def verifyPhase (md : RPMPackageMetadata) : Nat → List VSink → List PEvent × Except PErr Unit
  | _, [] => ([], Except.ok ())
  | i, v :: rest =>
    match v.verifyMeta md with
    | Except.error e => ([PEvent.vVerify i], Except.error e)
    | Except.ok _ =>
      let (tr, r) := verifyPhase md (i + 1) rest
      (PEvent.vVerify i :: tr, r)

/-- `RPMProcessor::process` (`processor/mod.rs` lines 62-67): write the
serialized metadata through the fan-out writer (lead, signature header and
main header each emitted with `write_all`), copy the body stream through
it, then run the verifiers' post-hoc checks. -/
def processRun (md : RPMPackageMetadata) (body : List (List Nat))
    (vs : List VSink) (ds : List DSink) : List PEvent × Except PErr Unit :=
  pseq (writeAll vs ds (Lead.write md.lead))
    (pseq (writeAll vs ds (Header.writeSignature md.signature))
      (pseq (writeAll vs ds (Header.write md.header))
        (pseq (copyRun vs ds body) (verifyPhase md 0 vs))))

/-! Spec-side descriptions of the expected traces, used to state the
fan-out claims. -/

/-- The events of one full broadcast of `buf`: every verifier-writer in
registration order, then every destination in registration order. -/
def broadcast (k m : Nat) (buf : List Nat) : List PEvent :=
  (List.range k).map (fun i => PEvent.vWrite i buf) ++
    (List.range m).map (fun i => PEvent.dWrite i buf)

/-- How many verifier-writers get their post-hoc `verify` called: all of
them up to and including the first failing one. -/
def calledVerifiers (md : RPMPackageMetadata) : List VSink → Nat
  | [] => 0
  | v :: rest =>
    match v.verifyMeta md with
    | Except.error _ => 1
    | Except.ok _ => 1 + calledVerifiers md rest

/-- The overall outcome of the post-hoc verification pass: the first
verifier failure, or success when all checks pass. -/
def verifyOutcome (md : RPMPackageMetadata) : List VSink → Except PErr Unit
  | [] => Except.ok ()
  | v :: rest =>
    match v.verifyMeta md with
    | Except.error e => Except.error e
    | Except.ok _ => verifyOutcome md rest

/-! ## Concrete fixtures -/

/-- A well-formed 96-byte lead: magic, major version 3, zero padding. -/
def lead0 : Lead := ⟨leadMagic ++ [3] ++ List.replicate 91 0⟩

/-- The empty header (no entries, empty store). -/
def header0 : Header := ⟨[], []⟩

/-- A small well-formed metadata fixture. -/
def md0 : RPMPackageMetadata := ⟨lead0, header0, header0⟩

/-- A small package fixture: `md0` plus a 3-byte payload. -/
def pkg0 : RPMPackage := ⟨md0, [1, 2, 3]⟩

/-- A destination that accepts exactly one byte of every buffer. -/
def dOne : DSink := ⟨fun _ => Except.ok 1⟩

/-- A destination that accepts every buffer in full. -/
def dAll : DSink := ⟨fun b => Except.ok b.length⟩

/-- A verifier-writer that accepts every buffer in full and whose post-hoc
check always passes. -/
def vOkSink : VSink := ⟨fun b => Except.ok b.length, fun _ => Except.ok ()⟩

/-- A verifying backend that accepts every (data, signature) pair. -/
def vOk : VerifierBackend := ⟨fun _ _ => Except.ok ()⟩

/-- A package fixture whose signature header holds both recognized
signature tags, built through `new_signature_header`. -/
def pkgSigned : RPMPackage :=
  ⟨{ md0 with signature := Header.new_signature_header 5 [1] [2] [9, 9] [8, 8, 8] }, [4, 5]⟩

/-- A package fixture whose signature header holds the header-only (RSA)
signature but lacks the header+payload (PGP) one. -/
def pkgRsaOnly : RPMPackage :=
  ⟨{ md0 with signature := ⟨[⟨RPMSIGTAG_RSA, 7, 0, 2⟩], [9, 9]⟩ }, [4, 5]⟩


/-! ## Helper lemmas -/

/-- The cursor's read never fails, so the `while let Ok` digest loop never
exits: for every fuel bound it is still running. -/
theorem md5LoopRun_eq_none (fuel : Nat) :
    ∀ (c : SeqCursor) (absorbed : List Nat), md5LoopRun fuel c absorbed = none := by
  induction fuel with
  | zero => intro c absorbed; rfl
  | succ n ih =>
    intro c absorbed
    simp only [md5LoopRun, SeqCursor.read]
    exact ih _ _

/-- A two-segment cursor at position 0 streams exactly the concatenation
of its segments. -/
theorem seqCursor_new_two_remaining (a b : List Nat) :
    (SeqCursor.new [a, b]).remaining = a ++ b := by
  simp [SeqCursor.new, SeqCursor.remaining, SeqCursor.allBytes]

/-- The logical length of a two-segment cursor. -/
theorem seqCursor_new_two_len (a b : List Nat) :
    (SeqCursor.new [a, b]).len = a.length + b.length := by
  simp [SeqCursor.new, SeqCursor.len, SeqCursor.allBytes]

/-! ## C1 — fan-out write count -/

/-- C1: the claim states that `MultiWriter::write` returns the minimum
byte count accepted across all destinations.  It does not: the code
returns whatever the LAST destination reported.  With destination 0
accepting only 1 byte and destination 1 accepting both bytes of a 2-byte
buffer, `write` reports 2 accepted bytes although only 1 byte is
guaranteed accepted by all sinks. -/
theorem multiWriterWrite_returns_last_count_not_min :
    (multiWriterWrite [] [dOne, dAll] [7, 7]).2 = Except.ok 2 ∧
      dOne.write [7, 7] = Except.ok 1 ∧ (2 : Nat) ≠ 1 :=
  ⟨rfl, rfl, by decide⟩

/-! ## C2-C5 — the signing pipeline never completes -/

/-- C2: the claim states that the MD5 digest loop of `RPMPackage::sign`
terminates after one finite traversal of the header‖payload cursor.  It
does not: the loop exits only when a read returns `Err`, but the cursor's
read returns `Ok(0)` forever at the logical end, so on the concrete
package `pkg0` the loop is still running after every finite number of
iterations. -/
theorem sign_md5_loop_never_terminates :
    ∀ fuel : Nat,
      md5LoopRun fuel
        (SeqCursor.new [Header.write pkg0.metadata.header, pkg0.content]) [] = none :=
  fun fuel => md5LoopRun_eq_none fuel _ _

/-- C3: the claim states that `sign` replaces the signature header
wholesale after both backend calls succeed.  `sign` never succeeds - it
hangs in the MD5 digest loop before reaching the backend - so the
replacement never takes place for any package, backend, or iteration
bound. -/
theorem sign_never_succeeds :
    ∀ (fuel : Nat) (signer : Signer) (pkg : RPMPackage),
      signSucceeded (signRun fuel signer pkg) = false := by
  intro fuel signer pkg
  simp only [signRun, md5LoopRun_eq_none]
  rfl

/-- C4: the claim states that every I/O error during `sign` is returned
to the caller.  `sign` never returns an error (nor anything else): its
digest loop treats a read error as a silent loop exit rather than a
failure, and with the slice-backed cursor - whose reads always succeed -
the loop simply never ends. -/
theorem sign_never_returns_error :
    ∀ (fuel : Nat) (signer : Signer) (pkg : RPMPackage),
      signReturnedError (signRun fuel signer pkg) = false := by
  intro fuel signer pkg
  simp only [signRun, md5LoopRun_eq_none]
  rfl

/-- C5: the claim states that `sign` computes both digests and invokes
the signing backend exactly twice.  For every fuel bound `sign` is still
inside the MD5 digest loop, so it never reaches the SHA1 computation or
either backend invocation. -/
theorem sign_never_completes :
    ∀ (fuel : Nat) (signer : Signer) (pkg : RPMPackage),
      signRun fuel signer pkg = none := by
  intro fuel signer pkg
  simp only [signRun, md5LoopRun_eq_none]

/-! ## C10 — the stored size value -/

/-- C10: the size argument `sign` hands to `new_signature_header` is the
header‖payload length cast with `as i32`, i.e. reduced modulo 2^32 and
reinterpreted as a signed 32-bit value; below 2^31 the cast is lossless,
from 2^31 on the stored value always differs from the actual length. -/
theorem signStoredSize_is_i32_cast :
    ∀ pkg : RPMPackage,
      signStoredSize pkg =
        usizeToI32 ((Header.write pkg.metadata.header).length + pkg.content.length) ∧
      ∀ n : Nat, (n < 2 ^ 31 → usizeToI32 n = n) ∧ (2 ^ 31 ≤ n → usizeToI32 n ≠ n) := by
  intro pkg
  constructor
  · simp only [signStoredSize, seqCursor_new_two_len]
  · intro n
    constructor
    · intro h
      simp only [usizeToI32]
      have h32 : n % 2 ^ 32 = n := Nat.mod_eq_of_lt (by omega)
      rw [h32]
      split
      · rfl
      · omega
    · intro h
      simp only [usizeToI32]
      have h32 : n % 2 ^ 32 < 2 ^ 32 := Nat.mod_lt _ (by omega)
      have hle : n % 2 ^ 32 ≤ n := Nat.mod_le _ _
      have hcase : n % 2 ^ 32 = n ∨ n % 2 ^ 32 < n := by
        rcases Nat.lt_or_ge n (2 ^ 32) with hlt | hge
        · exact Or.inl (Nat.mod_eq_of_lt hlt)
        · exact Or.inr (Nat.lt_of_lt_of_le h32 hge)
      split <;> rename_i hsm
      · intro heq
        rcases hcase with hc | hc
        · rw [hc] at hsm; omega
        · have : (n % 2 ^ 32 : Int) = n := heq
          omega
      · intro heq
        have : ((n % 2 ^ 32 : Nat) : Int) - 2 ^ 32 = (n : Int) := heq
        omega

/-- Witness for C10: on the concrete package `pkg0` the stored size is the
cast of the actual length; the cast is lossless at 5 and lossy at 2^31. -/
theorem signStoredSize_is_i32_cast_witness :
    signStoredSize pkg0 =
        usizeToI32 ((Header.write pkg0.metadata.header).length + pkg0.content.length) ∧
      usizeToI32 5 = 5 ∧ usizeToI32 (2 ^ 31) ≠ 2 ^ 31 :=
  ⟨(signStoredSize_is_i32_cast pkg0).1,
    (((signStoredSize_is_i32_cast pkg0).2 5).1 (by decide)),
    (((signStoredSize_is_i32_cast pkg0).2 (2 ^ 31)).2 (by decide))⟩

/-! ## C6 — verify_signature -/

/-- C6: `verify_signature` fetches the header-only (RSA tag) and
header+payload (PGP tag) signatures and fails when either is absent; with
both present it verifies the serialized main-header bytes against the
first and the header‖payload stream against the second, succeeding iff
both backend checks succeed, and on success the backend was called exactly
once per pair, in that order. -/
theorem verify_signature_structure :
    ∀ (v : VerifierBackend) (pkg : RPMPackage),
      (∀ e, pkg.metadata.signature.get_entry_binary_data RPMSIGTAG_RSA = Except.error e →
        verifySignatureRun v pkg = ([], Except.error e)) ∧
      (∀ s1 e, pkg.metadata.signature.get_entry_binary_data RPMSIGTAG_RSA = Except.ok s1 →
        pkg.metadata.signature.get_entry_binary_data RPMSIGTAG_PGP = Except.error e →
        verifySignatureRun v pkg = ([], Except.error e)) ∧
      (∀ s1 s2, pkg.metadata.signature.get_entry_binary_data RPMSIGTAG_RSA = Except.ok s1 →
        pkg.metadata.signature.get_entry_binary_data RPMSIGTAG_PGP = Except.ok s2 →
        ((verifySignatureRun v pkg).2 = Except.ok () ↔
          v.verify (Header.write pkg.metadata.header) s1 = Except.ok () ∧
          v.verify (Header.write pkg.metadata.header ++ pkg.content) s2 = Except.ok ()) ∧
        ((verifySignatureRun v pkg).2 = Except.ok () →
          (verifySignatureRun v pkg).1 =
            [(Header.write pkg.metadata.header, s1),
             (Header.write pkg.metadata.header ++ pkg.content, s2)])) := by
  intro v pkg
  refine ⟨?_, ?_, ?_⟩
  · intro e he
    simp only [verifySignatureRun, he]
  · intro s1 e h1 h2
    simp only [verifySignatureRun, h1, h2]
  · intro s1 s2 h1 h2
    simp only [verifySignatureRun, h1, h2, seqCursor_new_two_remaining]
    cases hv1 : v.verify (Header.write pkg.metadata.header) s1 with
    | error e => simp [hv1]
    | ok u =>
      cases u
      cases hv2 : v.verify (Header.write pkg.metadata.header ++ pkg.content) s2 with
      | error e => simp [hv1, hv2]
      | ok w => cases w; simp [hv1, hv2]

/-- Witness for C6: a package without signature entries makes
`verify_signature` fail with a tag-not-found error before any backend
call; one with only the RSA tag fails on the missing PGP tag; on a package
whose signature header was built by `new_signature_header`, with an
accepting backend, verification succeeds. -/
theorem verify_signature_structure_witness :
    verifySignatureRun vOk pkg0 = ([], Except.error PErr.tagNotFound) ∧
    verifySignatureRun vOk pkgRsaOnly = ([], Except.error PErr.tagNotFound) ∧
    (verifySignatureRun vOk pkgSigned).2 = Except.ok () :=
  ⟨(verify_signature_structure vOk pkg0).1 PErr.tagNotFound rfl,
   (verify_signature_structure vOk pkgRsaOnly).2.1 [9, 9] PErr.tagNotFound rfl rfl,
   (((verify_signature_structure vOk pkgSigned).2.2 [9, 9] [8, 8, 8]
     rfl rfl).1).mpr ⟨rfl, rfl⟩⟩

/-! ## C7 — staged metadata parse -/

theorem except_bind_ok {α β : Type} (a : α) (f : α → Except PErr β) :
    (Except.ok a >>= f) = f a := rfl

theorem except_bind_error {α β : Type} (e : PErr) (f : α → Except PErr β) :
    ((Except.error e : Except PErr α) >>= f) = Except.error e := rfl

/-- C7: metadata parse runs strictly in the order lead-read, lead-parse,
signature-header-parse, main-header-parse; the first failing stage's error
is the overall result, and a successful result is exactly the composition
of the three successful stages - no partial metadata object exists. -/
theorem metadata_parse_staged :
    ∀ input : List Nat,
      (∀ e, takeExact LEAD_SIZE input = Except.error e →
        RPMPackageMetadata.parse input = Except.error e) ∧
      (∀ lb r1 e, takeExact LEAD_SIZE input = Except.ok (lb, r1) →
        Lead.parse lb = Except.error e →
        RPMPackageMetadata.parse input = Except.error e) ∧
      (∀ lb r1 ld e, takeExact LEAD_SIZE input = Except.ok (lb, r1) →
        Lead.parse lb = Except.ok ld →
        Header.parseSignature r1 = Except.error e →
        RPMPackageMetadata.parse input = Except.error e) ∧
      (∀ lb r1 ld sg r2 e, takeExact LEAD_SIZE input = Except.ok (lb, r1) →
        Lead.parse lb = Except.ok ld →
        Header.parseSignature r1 = Except.ok (sg, r2) →
        Header.parse r2 = Except.error e →
        RPMPackageMetadata.parse input = Except.error e) ∧
      (∀ md rest, RPMPackageMetadata.parse input = Except.ok (md, rest) →
        ∃ lb r1 r2, takeExact LEAD_SIZE input = Except.ok (lb, r1) ∧
          Lead.parse lb = Except.ok md.lead ∧
          Header.parseSignature r1 = Except.ok (md.signature, r2) ∧
          Header.parse r2 = Except.ok (md.header, rest)) := by
  intro input
  refine ⟨?_, ?_, ?_, ?_, ?_⟩
  · intro e he
    simp only [RPMPackageMetadata.parse, he, except_bind_error]
  · intro lb r1 e h1 h2
    simp only [RPMPackageMetadata.parse, h1, except_bind_ok, h2, except_bind_error]
  · intro lb r1 ld e h1 h2 h3
    simp only [RPMPackageMetadata.parse, h1, except_bind_ok, h2, h3, except_bind_error]
  · intro lb r1 ld sg r2 e h1 h2 h3 h4
    simp only [RPMPackageMetadata.parse, h1, except_bind_ok, h2, h3, h4, except_bind_error]
  · intro md rest h
    cases h1 : takeExact LEAD_SIZE input with
    | error e =>
      simp only [RPMPackageMetadata.parse, h1, except_bind_error] at h
      exact Except.noConfusion h
    | ok p =>
      obtain ⟨lb, r1⟩ := p
      cases h2 : Lead.parse lb with
      | error e =>
        simp only [RPMPackageMetadata.parse, h1, except_bind_ok, h2, except_bind_error] at h
        exact Except.noConfusion h
      | ok ld =>
        cases h3 : Header.parseSignature r1 with
        | error e =>
          simp only [RPMPackageMetadata.parse, h1, except_bind_ok, h2, h3,
            except_bind_error] at h
          exact Except.noConfusion h
        | ok q =>
          obtain ⟨sg, r2⟩ := q
          cases h4 : Header.parse r2 with
          | error e =>
            simp only [RPMPackageMetadata.parse, h1, except_bind_ok, h2, h3, h4,
              except_bind_error] at h
            exact Except.noConfusion h
          | ok w =>
            obtain ⟨hd, r3⟩ := w
            simp only [RPMPackageMetadata.parse, h1, except_bind_ok, h2, h3, h4,
              Except.ok.injEq, Prod.mk.injEq] at h
            obtain ⟨hmd, hrest⟩ := h
            subst hmd
            subst hrest
            exact ⟨lb, r1, r2, rfl, h2, h3, h4⟩

set_option maxRecDepth 20000 in
/-- Witness for C7: an empty stream fails at the lead read; 96 bytes of
garbage fail at the lead parse; a valid lead followed by two stray header
bytes fails mid-signature-header with a truncation error; a valid lead and
signature header followed by one stray byte fails mid-main-header; and the
serialized fixture `md0` parses back whole, stage by stage. -/
theorem metadata_parse_staged_witness :
    RPMPackageMetadata.parse [] = Except.error PErr.truncated ∧
    RPMPackageMetadata.parse (List.replicate 96 7) = Except.error PErr.badMagic ∧
    RPMPackageMetadata.parse (lead0.bytes ++ [0x8e, 0xad]) = Except.error PErr.truncated ∧
    RPMPackageMetadata.parse (lead0.bytes ++ Header.writeSignature header0 ++ [0x8e]) =
      Except.error PErr.truncated ∧
    RPMPackageMetadata.parse (RPMPackageMetadata.writeBytes md0) = Except.ok (md0, []) :=
  ⟨(metadata_parse_staged []).1 PErr.truncated rfl,
   (metadata_parse_staged (List.replicate 96 7)).2.1
     (List.replicate 96 7) [] PErr.badMagic rfl rfl,
   (metadata_parse_staged (lead0.bytes ++ [0x8e, 0xad])).2.2.1
     lead0.bytes [0x8e, 0xad] lead0 PErr.truncated rfl rfl rfl,
   (metadata_parse_staged (lead0.bytes ++ Header.writeSignature header0 ++ [0x8e])).2.2.2.1
     lead0.bytes (Header.writeSignature header0 ++ [0x8e]) lead0 header0 [0x8e]
     PErr.truncated (by rfl) (by rfl) (by rfl) (by rfl),
   by rfl⟩

/-! ## C8/C9 — fan-out processing lemmas -/

/-- When every verifier-writer's `write` succeeds on `buf`, the verifier
phase issues one write per verifier, in registration order. -/
theorem vWritePhase_ok (buf : List Nat) :
    ∀ (vs : List VSink) (i : Nat), (∀ v ∈ vs, ∃ n, v.write buf = Except.ok n) →
      vWritePhase i vs buf =
        ((List.range' i vs.length).map (fun j => PEvent.vWrite j buf), Except.ok ()) := by
  intro vs
  induction vs with
  | nil => intro i _; rfl
  | cons v rest ih =>
    intro i h
    obtain ⟨n, hn⟩ := h v (List.mem_cons_self v rest)
    simp only [vWritePhase, hn]
    rw [ih (i + 1) (fun w hw => h w (List.mem_cons_of_mem v hw))]
    simp [List.range'_succ]

/-- When every destination accepts `buf` in full, the destination phase
issues one write per destination in order; the reported count is the LAST
destination's (i.e. `buf.length`, or the incoming `w` when the list is
empty). -/
theorem dWritePhase_full (buf : List Nat) :
    ∀ (ds : List DSink) (i w : Nat), (∀ d ∈ ds, d.write buf = Except.ok buf.length) →
      dWritePhase i w ds buf =
        ((List.range' i ds.length).map (fun j => PEvent.dWrite j buf),
          Except.ok (if ds.isEmpty then w else buf.length)) := by
  intro ds
  induction ds with
  | nil => intro i w _; rfl
  | cons d rest ih =>
    intro i w h
    simp only [dWritePhase, h d (List.mem_cons_self d rest)]
    rw [ih (i + 1) buf.length (fun e he => h e (List.mem_cons_of_mem d he))]
    simp [List.range'_succ, ite_self]

/-- Fan-out write under succeeding verifiers and fully-accepting
destinations: the trace is one full broadcast and the count is the last
destination's (0 for an empty destination list). -/
theorem multiWriterWrite_full (vs : List VSink) (ds : List DSink) (buf : List Nat)
    (hv : ∀ v ∈ vs, ∃ n, v.write buf = Except.ok n)
    (hd : ∀ d ∈ ds, d.write buf = Except.ok buf.length) :
    multiWriterWrite vs ds buf =
      (broadcast vs.length ds.length buf,
        Except.ok (if ds.isEmpty then 0 else buf.length)) := by
  simp only [multiWriterWrite, vWritePhase_ok buf vs 0 hv,
    dWritePhase_full buf ds 0 0 hd, broadcast, List.range_eq_range']

/-- `writeAllGo` on an empty buffer is a no-op for every fuel value. -/
theorem writeAllGo_nil (vs : List VSink) (ds : List DSink) (fuel : Nat) :
    writeAllGo vs ds fuel [] = ([], Except.ok ()) := by
  cases fuel <;> rfl

/-- `write_all` under succeeding verifiers and fully-accepting, non-empty
destinations performs exactly one broadcast of the buffer. -/
theorem writeAll_full (vs : List VSink) (ds : List DSink) (buf : List Nat)
    (hv : ∀ v ∈ vs, ∃ n, v.write buf = Except.ok n)
    (hd : ∀ d ∈ ds, d.write buf = Except.ok buf.length)
    (hds : ds.isEmpty = false) (hbuf : buf ≠ []) :
    writeAll vs ds buf = (broadcast vs.length ds.length buf, Except.ok ()) := by
  cases buf with
  | nil => exact absurd rfl hbuf
  | cons b bs =>
    have hmw := multiWriterWrite_full vs ds (b :: bs) hv hd
    rw [hds] at hmw
    simp only [Bool.false_eq_true, if_false, List.length_cons] at hmw
    show writeAllGo vs ds ((b :: bs).length) (b :: bs) = _
    rw [List.length_cons]
    simp only [writeAllGo, hmw]
    have hdrop : (b :: bs).drop (bs.length + 1) = [] := by
      simp
    rw [hdrop, writeAllGo_nil]
    simp

/-- Copying a body of non-empty chunks through the fan-out writer under
succeeding verifiers and fully-accepting destinations broadcasts each
chunk once, preserving the chunk boundaries and their order. -/
theorem copyRun_full (vs : List VSink) (ds : List DSink)
    (hv : ∀ v ∈ vs, ∀ buf, ∃ n, v.write buf = Except.ok n)
    (hd : ∀ d ∈ ds, ∀ buf, d.write buf = Except.ok buf.length)
    (hds : ds.isEmpty = false) :
    ∀ body : List (List Nat), (∀ c ∈ body, c ≠ []) →
      copyRun vs ds body =
        ((body.map (broadcast vs.length ds.length)).flatten, Except.ok ()) := by
  intro body
  induction body with
  | nil => intro _; rfl
  | cons c rest ih =>
    intro h
    have hc : c ≠ [] := h c (List.mem_cons_self c rest)
    simp only [copyRun, if_neg hc]
    rw [writeAll_full vs ds c (fun v hv' => hv v hv' c) (fun d hd' => hd d hd' c) hds hc]
    rw [ih (fun e he => h e (List.mem_cons_of_mem c he))]
    simp [pseq]

/-- The post-hoc verification pass calls `verify` on the verifiers in
registration order up to (and including) the first failing one, and its
outcome is the first failure. -/
theorem verifyPhase_spec (md : RPMPackageMetadata) :
    ∀ (vs : List VSink) (i : Nat),
      verifyPhase md i vs =
        ((List.range' i (calledVerifiers md vs)).map PEvent.vVerify,
          verifyOutcome md vs) := by
  intro vs
  induction vs with
  | nil => intro i; rfl
  | cons v rest ih =>
    intro i
    cases hv : v.verifyMeta md with
    | error e =>
      simp [verifyPhase, calledVerifiers, verifyOutcome, hv, List.range'_succ]
    | ok u =>
      cases u
      simp only [verifyPhase, calledVerifiers, verifyOutcome, hv]
      rw [ih (i + 1)]
      have : 1 + calledVerifiers md rest = calledVerifiers md rest + 1 := Nat.add_comm 1 _
      rw [this, List.range'_succ]
      simp

/-- The verification pass succeeds iff every verifier's check passes. -/
theorem verifyOutcome_ok_iff (md : RPMPackageMetadata) :
    ∀ vs : List VSink,
      verifyOutcome md vs = Except.ok () ↔ ∀ v ∈ vs, v.verifyMeta md = Except.ok () := by
  intro vs
  induction vs with
  | nil => simp [verifyOutcome]
  | cons v rest ih =>
    cases hv : v.verifyMeta md with
    | error e => simp [verifyOutcome, hv]
    | ok u => cases u; simp [verifyOutcome, hv, ih]

/-- A serialized header always starts with the header magic, so it is
never empty. -/
theorem header_write_ne_nil (h : Header) : Header.write h ≠ [] := by
  intro he
  have := congrArg List.length he
  simp [Header.write, headerMagic] at this

/-- A signature-serialized header is never empty either. -/
theorem header_writeSignature_ne_nil (h : Header) : Header.writeSignature h ≠ [] := by
  intro he
  rcases List.append_eq_nil.mp he with ⟨h1, _⟩
  exact header_write_ne_nil h h1

/-- Sequencing after a successful traced step. -/
theorem pseq_ok (a : List PEvent) (b : List PEvent × Except PErr Unit) :
    pseq (a, Except.ok ()) b = (a ++ b.1, b.2) := rfl

/-- Sequencing stops at a failed traced step. -/
theorem pseq_error (a : List PEvent) (e : PErr) (b : List PEvent × Except PErr Unit) :
    pseq (a, Except.error e) b = (a, Except.error e) := rfl

/-- With no destination registered, `write_all` of any non-empty buffer
fails with a zero-byte-write error on its first iteration. -/
theorem writeAll_no_dest (vs : List VSink) (buf : List Nat) (hbuf : buf ≠ [])
    (hv : ∀ v ∈ vs, ∃ n, v.write buf = Except.ok n) :
    ∃ tr, writeAll vs [] buf = (tr, Except.error PErr.writeZero) := by
  cases buf with
  | nil => exact absurd rfl hbuf
  | cons b bs =>
    have hmw := multiWriterWrite_full vs [] (b :: bs) hv (by intro d hd; simp at hd)
    simp only [List.isEmpty_nil, if_true] at hmw
    refine ⟨broadcast vs.length 0 (b :: bs), ?_⟩
    show writeAllGo vs [] ((b :: bs).length) (b :: bs) = _
    rw [List.length_cons]
    simp only [writeAllGo, hmw]
    rfl

/-! ## C8 — process ordering and fan-out -/

/-- C8: under succeeding verifier-writer writes and fully-accepting,
non-empty destinations, `process` first broadcasts the serialized metadata
(lead, signature header, main header), then broadcasts each body chunk
unchanged - each chunk to every verifier-writer in registration order
before any destination - and finally calls `verify(metadata)` on the
verifier-writers in registration order, stopping at the first failure;
the overall result is a success iff every verifier's check passes. -/
theorem process_fanout :
    ∀ (md : RPMPackageMetadata) (body : List (List Nat)) (vs : List VSink) (ds : List DSink),
      (∀ v ∈ vs, ∀ buf, ∃ n, v.write buf = Except.ok n) →
      (∀ d ∈ ds, ∀ buf, d.write buf = Except.ok buf.length) →
      ds.isEmpty = false →
      (∀ c ∈ body, c ≠ []) →
      Lead.write md.lead ≠ [] →
      processRun md body vs ds =
        (broadcast vs.length ds.length (Lead.write md.lead) ++
          (broadcast vs.length ds.length (Header.writeSignature md.signature) ++
            (broadcast vs.length ds.length (Header.write md.header) ++
              ((body.map (broadcast vs.length ds.length)).flatten ++
                (List.range (calledVerifiers md vs)).map PEvent.vVerify))),
          verifyOutcome md vs) ∧
      ((processRun md body vs ds).2 = Except.ok () ↔
        ∀ v ∈ vs, v.verifyMeta md = Except.ok ()) := by
  intro md body vs ds hv hd hds hbody hlead
  have hw1 := writeAll_full vs ds (Lead.write md.lead)
    (fun v h => hv v h _) (fun d h => hd d h _) hds hlead
  have hw2 := writeAll_full vs ds (Header.writeSignature md.signature)
    (fun v h => hv v h _) (fun d h => hd d h _) hds (header_writeSignature_ne_nil _)
  have hw3 := writeAll_full vs ds (Header.write md.header)
    (fun v h => hv v h _) (fun d h => hd d h _) hds (header_write_ne_nil _)
  have hcopy := copyRun_full vs ds hv hd hds body hbody
  have hver := verifyPhase_spec md vs 0
  have htrace : processRun md body vs ds =
      (broadcast vs.length ds.length (Lead.write md.lead) ++
        (broadcast vs.length ds.length (Header.writeSignature md.signature) ++
          (broadcast vs.length ds.length (Header.write md.header) ++
            ((body.map (broadcast vs.length ds.length)).flatten ++
              (List.range (calledVerifiers md vs)).map PEvent.vVerify))),
        verifyOutcome md vs) := by
    simp only [processRun, hw1, hw2, hw3, hcopy, hver, pseq_ok, List.range_eq_range']
  refine ⟨htrace, ?_⟩
  rw [htrace]
  exact verifyOutcome_ok_iff md vs

/-- Witness for C8: a concrete run with one all-accepting verifier-writer,
one fully-accepting destination, the metadata fixture `md0` and a two-chunk
body produces exactly the claimed trace and succeeds. -/
theorem process_fanout_witness :
    processRun md0 [[1, 2], [3]] [vOkSink] [dAll] =
      (broadcast 1 1 (Lead.write md0.lead) ++
        (broadcast 1 1 (Header.writeSignature md0.signature) ++
          (broadcast 1 1 (Header.write md0.header) ++
            (([[1, 2], [3]].map (broadcast 1 1)).flatten ++
              (List.range (calledVerifiers md0 [vOkSink])).map PEvent.vVerify))),
        verifyOutcome md0 [vOkSink]) ∧
    (processRun md0 [[1, 2], [3]] [vOkSink] [dAll]).2 = Except.ok () := by
  have h := process_fanout md0 [[1, 2], [3]] [vOkSink] [dAll]
    (by intro v hv buf; simp at hv; subst hv; exact ⟨buf.length, rfl⟩)
    (by intro d hd buf; simp at hd; subst hd; rfl)
    rfl
    (by intro c hc; simp at hc; rcases hc with rfl | rfl <;> simp)
    (by decide)
  exact ⟨h.1, h.2.mpr (by intro v hv; simp at hv; subst hv; rfl)⟩

/-! ## C9 — empty destination list -/

/-- C9: with no destination registered, the fan-out write reports 0
accepted bytes for every buffer (verifier-writers notwithstanding), and
consequently `process` fails with the zero-byte-write I/O error on any
metadata/body - even when every verifier-writer accepted all bytes. -/
theorem process_empty_destinations_fails :
    (∀ (vs : List VSink) (buf : List Nat),
      (∀ v ∈ vs, ∃ n, v.write buf = Except.ok n) →
      (multiWriterWrite vs [] buf).2 = Except.ok 0) ∧
    (∀ (md : RPMPackageMetadata) (body : List (List Nat)) (vs : List VSink),
      (∀ v ∈ vs, ∀ buf, ∃ n, v.write buf = Except.ok n) →
      (processRun md body vs []).2 = Except.error PErr.writeZero) := by
  constructor
  · intro vs buf h
    rw [multiWriterWrite_full vs [] buf h (by intro d hd; simp at hd)]
    rfl
  · intro md body vs h
    cases hlead : Lead.write md.lead with
    | nil =>
      obtain ⟨tr, hr⟩ := writeAll_no_dest vs (Header.writeSignature md.signature)
        (header_writeSignature_ne_nil _) (fun v hv' => h v hv' _)
      simp only [processRun, hlead]
      rw [show (writeAll vs [] ([] : List Nat)) = ([], Except.ok ()) from rfl,
        pseq_ok, hr, pseq_error]
    | cons b bs =>
      obtain ⟨tr, hr⟩ := writeAll_no_dest vs (Lead.write md.lead)
        (by rw [hlead]; exact List.cons_ne_nil b bs) (fun v hv' => h v hv' _)
      rw [hlead] at hr
      simp only [processRun, hlead]
      rw [hr, pseq_error]

/-- Witness for C9: with one all-accepting verifier-writer and no
destination, the fan-out write of a non-empty buffer reports 0 bytes, and
`process` on the fixture metadata with a non-empty body fails with the
zero-byte-write error. -/
theorem process_empty_destinations_fails_witness :
    (multiWriterWrite [vOkSink] [] [1, 2]).2 = Except.ok 0 ∧
    (processRun md0 [[1]] [vOkSink] []).2 = Except.error PErr.writeZero :=
  ⟨process_empty_destinations_fails.1 [vOkSink] [1, 2]
      (by intro v hv; simp at hv; subst hv; exact ⟨2, rfl⟩),
   process_empty_destinations_fails.2 md0 [[1]] [vOkSink]
      (by intro v hv buf; simp at hv; subst hv; exact ⟨buf.length, rfl⟩)⟩
